import Mathlib

/-!
Verification development for the `animatic` animation engine.

The engine side (Animation / Item scheduling, `src/unnamed/part_001`) is
embedded over `ℚ`: the JavaScript code only adds, subtracts, multiplies and
divides tick values, so exact rational arithmetic models its ideal semantics
and keeps every definition executable and decidable.

The matrix algebra (`Vector` / `Matrix` objects of the same file) uses
trigonometric functions and square roots, so it is embedded over `ℝ`.
-/

namespace Anima

/-- Length-3 number array of the engine state (`[x, y, z]`). -/
structure V3 where
  x : ℚ
  y : ℚ
  z : ℚ
  deriving DecidableEq

/-- `Item`'s transform state; defaults set by `Item.prototype.init` and
`Item.prototype.clear`: translate `[0,0,0]`, rotate `[0,0,0]`,
scale `[1,1,1]`, opacity `1`. -/
structure State where
  translate : V3
  rotate : V3
  scale : V3
  opacity : ℚ
  deriving DecidableEq

/-- The state written by `Item.prototype.clear` (same values as `init`). -/
def clearState : State := ⟨⟨0, 0, 0⟩, ⟨0, 0, 0⟩, ⟨1, 1, 1⟩, 1⟩

/-- `easings.linear`, the default easing. -/
def linear : ℚ → ℚ := fun p => p

/-- An `Animation` (constructor `Animation(item, transform, duration, ease, delay)`).
`translate`/`rotate`/`scale`/`opacity` are the optional target descriptors,
`duration`/`delay`/`ease` the scheduling parameters, and `start`/`initial`
the mutable fields (`null` before `init`). -/
structure Animation where
  translate : Option V3
  rotate : Option V3
  scale : Option V3
  opacity : Option ℚ
  duration : ℚ
  delay : ℚ
  ease : ℚ → ℚ
  start : Option ℚ
  initial : Option State

/-- Numeric value of `this.start` in arithmetic contexts: JavaScript coerces
`null` to `0`.  In every engine flow modelled here `start` is non-null when
this is read. -/
def Animation.startVal (a : Animation) : ℚ := a.start.getD 0

/-- `Animation.prototype.init(tick, force)`: no-op when `start` is non-null
and `force` is not set; otherwise anchors `start = tick + delay` and
snapshots `initial` from the item's current state. -/
def Animation.init (a : Animation) (tick : ℚ) (force : Bool) (st : State) : Animation :=
  if a.start ≠ none ∧ force = false then a
  else { a with start := some (tick + a.delay), initial := some st }

/-- Vector case of `Animation.prototype.set`: for each of the three axes,
a truthy (non-zero) requested component sets
`state[i] = initial[i] + requested[i] * percent`; a zero component leaves
the current state component untouched. -/
def setVec (delta : Option V3) (ini cur : V3) (p : ℚ) : V3 :=
  match delta with
  | none => cur
  | some d =>
    { x := if d.x ≠ 0 then ini.x + d.x * p else cur.x
      y := if d.y ≠ 0 then ini.y + d.y * p else cur.y
      z := if d.z ≠ 0 then ini.z + d.z * p else cur.z }

/-- Scalar case of `Animation.prototype.set` (opacity):
`state = initial + (target - initial) * percent`. -/
def setScalar (target : Option ℚ) (ini cur : ℚ) (p : ℚ) : ℚ :=
  match target with
  | none => cur
  | some t => ini + (t - ini) * p

/-- `Animation.prototype.transform(percent)`: applies `set` to the four
fields.  Reads `this.initial`; the `none` branch is unreachable in the
engine flows modelled here (`init` always precedes `transform`). -/
def Animation.transform (a : Animation) (p : ℚ) (st : State) : State :=
  match a.initial with
  | none => st
  | some ini =>
    { translate := setVec a.translate ini.translate st.translate p
      rotate := setVec a.rotate ini.rotate st.rotate p
      scale := setVec a.scale ini.scale st.scale p
      opacity := setScalar a.opacity ini.opacity st.opacity p }

/-- `Animation.prototype.run(tick)`: no-op while still delayed, otherwise
applies the eased progress `(tick - start) / duration`. -/
def Animation.run (a : Animation) (tick : ℚ) (st : State) : State :=
  if tick < a.startVal then st
  else a.transform (a.ease ((tick - a.startVal) / a.duration)) st

/-- `Animation.prototype.end(abort)` (`end` is a Lean keyword): unless
aborting, snaps to the exact end state via `transform(1)`; resets
`start = null`.  Returns the new item state and the updated animation. -/
def Animation.end' (a : Animation) (abort : Bool) (st : State) : State × Animation :=
  (if abort = false then a.transform 1 st else st, { a with start := none })

/-- An `Item`: FIFO animation queue, `infinite`/`running` flags and the
owned transform state. -/
structure Item where
  animations : List Animation
  infinite : Bool
  running : Bool
  state : State

/-- The `while` loop body of `Item.prototype.animation(tick)` with explicit
fuel.  One iteration: lazily `init` the head; if it is due to end
(`start + duration <= tick`), push it to the tail when `infinite` (the
JavaScript pushes the same object reference that `end()` then mutates, so
the tail holds the post-`end` animation), shift it, `end()` it and loop;
otherwise `run` it and stop.  `none` models a loop that never breaks. -/
def animationLoop (tick : ℚ) (inf : Bool) : Nat → List Animation → State →
    Option (List Animation × State)
  | _, [], st => some ([], st)
  | 0, _ :: _, _ => none
  | fuel + 1, a :: rest, st =>
    let a1 := a.init tick false st
    if a1.startVal + a1.duration ≤ tick then
      let p := a1.end' false st
      animationLoop tick inf fuel (if inf then rest ++ [p.2] else rest) p.1
    else
      some (a1 :: rest, a1.run tick st)

/-- `Item.prototype.animation(tick)`: free-running advance.  Returns early
when not running or the queue is empty.  Any terminating run of the
JavaScript `while` loop performs at most `2 * length` iterations (each
queued unit can end at most twice before the loop must break), so fuel
`2 * length + 2` is conservative; `none` therefore means the JavaScript
loop diverges. -/
def Item.animation (it : Item) (tick : ℚ) : Option Item :=
  if !it.running || it.animations.isEmpty then some it
  else
    match animationLoop tick it.infinite (2 * it.animations.length + 2)
      it.animations it.state with
    | none => none
    | some (q, st) => some { it with animations := q, state := st }

/-- The `for` loop of `Item.prototype.seek(tick)`: walk the queue from the
front with a running virtual offset `time`; force-`init` each unit at
`time`; fully elapsed units are force-ended (`end()`) and `time` advances by
`delay + duration`; the first unit still in its window is `run(tick)` and
the walk stops, leaving later units untouched. -/
def seekLoop (tick : ℚ) : ℚ → List Animation → State → List Animation × State
  | _, [], st => ([], st)
  | time, a :: rest, st =>
    let a1 := a.init time true st
    if a1.startVal + a1.duration ≤ tick then
      let p := a1.end' false st
      let q := seekLoop tick (time + a1.delay + a1.duration) rest p.1
      (p.2 :: q.1, q.2)
    else
      (a1 :: rest, a1.run tick st)

/-- `Item.prototype.seek(tick)`: returns immediately on an empty queue;
otherwise resets the state to the cleared default and replays the queue
from virtual offset `0`. -/
def Item.seek (it : Item) (tick : ℚ) : Item :=
  if it.animations.isEmpty then it
  else
    let r := seekLoop tick 0 it.animations clearState
    { it with animations := r.1, state := r.2 }

/-- Builds an `Animation` record with the given translate/opacity targets,
duration and delay, default `linear` easing, and `null` scheduling fields,
as the `Animation` constructor does for such a descriptor. -/
def mkAnim (tr : Option V3) (op : Option ℚ) (dur del : ℚ) : Animation :=
  { translate := tr, rotate := none, scale := none, opacity := op,
    duration := dur, delay := del, ease := linear, start := none, initial := none }

/-- Shape of every state arising in the concrete scenarios below:
translate `[x, y, 0]`, all other fields at the cleared defaults. -/
def xyState (x y : ℚ) : State := ⟨⟨x, y, 0⟩, ⟨0, 0, 0⟩, ⟨1, 1, 1⟩, 1⟩

/-- First queued unit of the `[100, 200, 150]` sequential scenario:
translate delta `[10,0,0]`, duration `100`, no delay. -/
def a100 : Animation := mkAnim (some ⟨10, 0, 0⟩) none 100 0

/-- Second queued unit: translate delta `[0,20,0]`, duration `200`. -/
def a200 : Animation := mkAnim (some ⟨0, 20, 0⟩) none 200 0

/-- Third queued unit: translate delta `[7,0,0]`, duration `150`. -/
def a150 : Animation := mkAnim (some ⟨7, 0, 0⟩) none 150 0

/-- Non-infinite, running item holding the three sequential animations,
starting from the cleared default state. -/
def item3 : Item := ⟨[a100, a200, a150], false, true, clearState⟩

/-- Free-running playback: `animation(0)`, `animation(1)`, ...,
`animation(t)` in order (`none` as soon as one call diverges). -/
def freeRun (it : Item) : ℕ → Option Item
  | 0 => it.animation 0
  | t + 1 => (freeRun it t).bind (fun j => j.animation ((t + 1 : ℕ) : ℚ))

/-- Closed form of the item state reached by free-running `item3` to tick
`t` (also the state produced by `seek t`): one phase per queued unit. -/
def inv3 (t : ℕ) : Item :=
  if t < 100 then
    ⟨[{ a100 with start := some 0, initial := some (xyState 0 0) }, a200, a150],
      false, true, xyState ((t : ℚ) / 10) 0⟩
  else if t < 300 then
    ⟨[{ a200 with start := some 100, initial := some (xyState 10 0) }, a150],
      false, true, xyState 10 (((t : ℚ) - 100) / 10)⟩
  else if t < 450 then
    ⟨[{ a150 with start := some 300, initial := some (xyState 10 20) }],
      false, true, xyState (10 + 7 * (((t : ℚ) - 300) / 150)) 20⟩
  else
    ⟨[], false, true, xyState 17 20⟩

/-- The single 500ms unit of the infinite-loop scenario: translate delta
`[10,0,0]`. -/
def a500 : Animation := mkAnim (some ⟨10, 0, 0⟩) none 500 0

/-- Item with `infinite = true` holding the single 500ms animation. -/
def itemInf : Item := ⟨[a500], true, true, clearState⟩

/-- Closed form of the item reached by free-running `itemInf` to tick `t`:
the unit has been recycled `t / 500` times, is re-anchored at the last
multiple of `500`, and each completed cycle has added the delta once. -/
def invInf (t : ℕ) : Item :=
  ⟨[{ a500 with
      start := some ((500 * (t / 500) : ℕ) : ℚ)
      initial := some (xyState ((10 * (t / 500) : ℕ) : ℚ) 0) }],
    true, true,
    xyState (((10 * (t / 500) : ℕ) : ℚ) +
      10 * (((t : ℚ) - ((500 * (t / 500) : ℕ) : ℚ)) / 500)) 0⟩

noncomputable section

/-- Real 3-component vector for the matrix algebra. -/
structure V3R where
  x : ℝ
  y : ℝ
  z : ℝ

/-- Result record of `Matrix.decompose` (and argument triple of `compose`). -/
structure TRS where
  translate : V3R
  rotate : V3R
  scale : V3R

/-- A 16-element matrix array `[e0, ..., e15]`, row-major as in the source. -/
@[ext]
structure Mat4 where
  e0 : ℝ
  e1 : ℝ
  e2 : ℝ
  e3 : ℝ
  e4 : ℝ
  e5 : ℝ
  e6 : ℝ
  e7 : ℝ
  e8 : ℝ
  e9 : ℝ
  e10 : ℝ
  e11 : ℝ
  e12 : ℝ
  e13 : ℝ
  e14 : ℝ
  e15 : ℝ

/-- Componentwise closeness of two matrices within `eps`. -/
def Mat4.approx (eps : ℝ) (a b : Mat4) : Prop :=
  |a.e0 - b.e0| ≤ eps ∧ |a.e1 - b.e1| ≤ eps ∧ |a.e2 - b.e2| ≤ eps ∧
  |a.e3 - b.e3| ≤ eps ∧ |a.e4 - b.e4| ≤ eps ∧ |a.e5 - b.e5| ≤ eps ∧
  |a.e6 - b.e6| ≤ eps ∧ |a.e7 - b.e7| ≤ eps ∧ |a.e8 - b.e8| ≤ eps ∧
  |a.e9 - b.e9| ≤ eps ∧ |a.e10 - b.e10| ≤ eps ∧ |a.e11 - b.e11| ≤ eps ∧
  |a.e12 - b.e12| ≤ eps ∧ |a.e13 - b.e13| ≤ eps ∧ |a.e14 - b.e14| ≤ eps ∧
  |a.e15 - b.e15| ≤ eps

/-- `var radians = Math.PI / 180`. -/
def radians : ℝ := Real.pi / 180

/-- Real-number semantics of `Math.atan2(y, x)` (finite inputs; the
signed-zero distinctions of floating point collapse to the single real
zero, with `atan2 0 0 = 0` as for positive zero arguments). -/
def atan2 (y x : ℝ) : ℝ :=
  if 0 < x then Real.arctan (y / x)
  else if x < 0 then
    (if 0 ≤ y then Real.arctan (y / x) + Real.pi else Real.arctan (y / x) - Real.pi)
  else
    (if 0 < y then Real.pi / 2 else if y < 0 then -(Real.pi / 2) else 0)

namespace Vector

/-- `Vector.length(x, y, z)`. -/
def length (x y z : ℝ) : ℝ := Real.sqrt (x * x + y * y + z * z)

/-- `Vector.norm(x, y, z)`: normalizes a non-zero vector; a zero-length
input yields the zero vector (`x = y = z = 0` branch of the source). -/
def norm (x y z : ℝ) : V3R :=
  let len := length x y z
  if len ≠ 0 then ⟨x / len, y / len, z / len⟩ else ⟨0, 0, 0⟩

end Vector

namespace Matrix

/-- `Matrix.identity()`. -/
def identity : Mat4 := ⟨1, 0, 0, 0, 0, 1, 0, 0, 0, 0, 1, 0, 0, 0, 0, 1⟩

/-- Binary `Matrix.multiply(a, b)`: starts from `identity()` and assigns
the twelve affine entries; positions 3, 7, 11 and 15 keep the identity
values `0, 0, 0, 1`. -/
def multiply (a b : Mat4) : Mat4 :=
  { e0 := a.e0 * b.e0 + a.e1 * b.e4 + a.e2 * b.e8
    e1 := a.e0 * b.e1 + a.e1 * b.e5 + a.e2 * b.e9
    e2 := a.e0 * b.e2 + a.e1 * b.e6 + a.e2 * b.e10
    e3 := identity.e3
    e4 := a.e4 * b.e0 + a.e5 * b.e4 + a.e6 * b.e8
    e5 := a.e4 * b.e1 + a.e5 * b.e5 + a.e6 * b.e9
    e6 := a.e4 * b.e2 + a.e5 * b.e6 + a.e6 * b.e10
    e7 := identity.e7
    e8 := a.e8 * b.e0 + a.e9 * b.e4 + a.e10 * b.e8
    e9 := a.e8 * b.e1 + a.e9 * b.e5 + a.e10 * b.e9
    e10 := a.e8 * b.e2 + a.e9 * b.e6 + a.e10 * b.e10
    e11 := identity.e11
    e12 := a.e12 * b.e0 + a.e13 * b.e4 + a.e14 * b.e8 + b.e12
    e13 := a.e12 * b.e1 + a.e13 * b.e5 + a.e14 * b.e9 + b.e13
    e14 := a.e12 * b.e2 + a.e13 * b.e6 + a.e14 * b.e10 + b.e14
    e15 := identity.e15 }

/-- Variadic `Matrix.multiply(a, b, c, ...)`: folds left-to-right
(`2 >= arguments.length ? c : multiply.apply(this, [c].concat(rest))`). -/
def multiplyMany : Mat4 → Mat4 → List Mat4 → Mat4
  | a, b, [] => multiply a b
  | a, b, c :: rest => multiplyMany (multiply a b) c rest

/-- `Matrix.rotate(ax, ay, az)` (degrees): all-falsy arguments
short-circuit to `identity()`; otherwise the combined Euler matrix. -/
def rotate (ax ay az : ℝ) : Mat4 :=
  if ax = 0 ∧ ay = 0 ∧ az = 0 then identity
  else
    let axr := ax * radians
    let ayr := ay * radians
    let azr := az * radians
    let sx := Real.sin axr
    let cx := Real.cos axr
    let sy := Real.sin ayr
    let cy := Real.cos ayr
    let sz := Real.sin azr
    let cz := Real.cos azr
    ⟨cy * cz, cx * sz + sx * sy * cz, sx * sz - cx * sy * cz, 0,
     -cy * sz, cx * cz - sx * sy * sz, sx * cz + cx * sy * sz, 0,
     sy, -sx * cy, cx * cy, 0,
     0, 0, 0, 1⟩

/-- `Matrix.rotate3d(x, y, z, a)`: Rodrigues matrix about the
`Vector.norm`-normalized axis (angle in degrees). -/
def rotate3d (x y z a : ℝ) : Mat4 :=
  let ar := a * radians
  let s := Real.sin ar
  let c := Real.cos ar
  let n := Vector.norm x y z
  let nx := n.x
  let ny := n.y
  let nz := n.z
  let xx := nx * nx
  let yy := ny * ny
  let zz := nz * nz
  let c1 := 1 - c
  ⟨xx + (1 - xx) * c, nx * ny * c1 + nz * s, nx * nz * c1 - ny * s, 0,
   nx * ny * c1 - nz * s, yy + (1 - yy) * c, ny * nz * c1 + nx * s, 0,
   nx * nz * c1 + ny * s, ny * nz * c1 - nx * s, zz + (1 - zz) * c, 0,
   0, 0, 0, 1⟩

/-- `Matrix.perspective(p)`: identity with entry 11 set to `-1 / p`. -/
def perspective (p : ℝ) : Mat4 :=
  ⟨1, 0, 0, 0, 0, 1, 0, 0, 0, 0, 1, -1 / p, 0, 0, 0, 1⟩

/-- Determinant of the upper-left 3x3 block, exactly as the source's
`inverse` computes it: `m[0]*inv0 - m[1]*inv4 + m[2]*inv8`. -/
def det3 (m : Mat4) : ℝ :=
  m.e0 * (m.e5 * m.e10 - m.e6 * m.e9) -
    m.e1 * (m.e4 * m.e10 - m.e6 * m.e8) +
    m.e2 * (m.e4 * m.e9 - m.e5 * m.e8)

/-- `Matrix.inverse(m)`: closed-form inverse of the 3x3 block (cofactors
scaled by `1 / det`) plus the translation adjustment; the perspective
positions keep the identity values. -/
def inverse (m : Mat4) : Mat4 :=
  let inv0 := m.e5 * m.e10 - m.e6 * m.e9
  let inv1 := m.e1 * m.e10 - m.e2 * m.e9
  let inv2 := m.e1 * m.e6 - m.e2 * m.e5
  let inv4 := m.e4 * m.e10 - m.e6 * m.e8
  let inv5 := m.e0 * m.e10 - m.e2 * m.e8
  let inv6 := m.e0 * m.e6 - m.e2 * m.e4
  let inv8 := m.e4 * m.e9 - m.e5 * m.e8
  let inv9 := m.e0 * m.e9 - m.e1 * m.e8
  let inv10 := m.e0 * m.e5 - m.e1 * m.e4
  let det := 1 / (m.e0 * inv0 - m.e1 * inv4 + m.e2 * inv8)
  let a0 := det * inv0
  let a1 := -det * inv1
  let a2 := det * inv2
  let a4 := -det * inv4
  let a5 := det * inv5
  let a6 := -det * inv6
  let a8 := det * inv8
  let a9 := -det * inv9
  let a10 := det * inv10
  ⟨a0, a1, a2, 0,
   a4, a5, a6, 0,
   a8, a9, a10, 0,
   -m.e12 * a0 - m.e13 * a4 - m.e14 * a8,
   -m.e12 * a1 - m.e13 * a5 - m.e14 * a9,
   -m.e12 * a2 - m.e13 * a6 - m.e14 * a10, 1⟩

/-- `Matrix.compose(translate, rotate, scale)`: build the Euler rotation,
scale its three rows by the scale components, place the translation in the
last row.  The source's `translate.length` / `scale.length` guards are
for absent arguments; here all three length-3 arrays are present, so both
blocks always apply. -/
def compose (translate rot scale : V3R) : Mat4 :=
  let a := rotate rot.x rot.y rot.z
  { a with
    e0 := a.e0 * scale.x, e1 := a.e1 * scale.x, e2 := a.e2 * scale.x
    e4 := a.e4 * scale.y, e5 := a.e5 * scale.y, e6 := a.e6 * scale.y
    e8 := a.e8 * scale.z, e9 := a.e9 * scale.z, e10 := a.e10 * scale.z
    e12 := translate.x, e13 := translate.y, e14 := translate.z }

/-- `Matrix.decompose(m)`: scales from the row lengths, translation from
the last row, Euler angles (degrees) via `atan2`/`asin` on the normalized
rows; when `m[4]` is exactly `1` or `-1` the specialized branch overrides
the three angles (note the source's `rY = m[4] * -Math.PI / 2` in that
branch is not divided by `radians`). -/
def decompose (m : Mat4) : TRS :=
  let sX := Vector.length m.e0 m.e1 m.e2
  let sY := Vector.length m.e4 m.e5 m.e6
  let sZ := Vector.length m.e8 m.e9 m.e10
  let gX := atan2 (-m.e9 / sZ) (m.e10 / sZ) / radians
  let gY := Real.arcsin (m.e8 / sZ) / radians
  let gZ := atan2 (-m.e4 / sY) (m.e0 / sX) / radians
  let lock := m.e4 = 1 ∨ m.e4 = -1
  let rX := if lock then 0 else gX
  let rY := if lock then m.e4 * -Real.pi / 2 else gY
  let rZ := if lock then m.e4 * atan2 (m.e6 / sY) (m.e5 / sY) / radians else gZ
  { translate := ⟨m.e12, m.e13, m.e14⟩
    rotate := ⟨rX, rY, rZ⟩
    scale := ⟨sX, sY, sZ⟩ }

end Matrix

end

/-! Theorems.  Helper lemmas come first, then one theorem per claim (with
its witness or counterexample where required). -/

/-- Force-`init` ignores the previous scheduling fields and overwrites
them from its arguments. -/
theorem init_true_eq (a : Animation) (time : ℚ) (st : State) :
    a.init time true st =
      { a with start := some (time + a.delay), initial := some st } := by
  simp [Animation.init]

/-- The seek walk preserves the queue length (ended units are kept). -/
theorem seekLoop_length (tick : ℚ) (q : List Animation) :
    ∀ time st, ((seekLoop tick time q st).1).length = q.length := by
  induction q with
  | nil => intro time st; simp [seekLoop]
  | cons a rest ih =>
    intro time st
    simp only [seekLoop]
    split
    · simp [ih]
    · simp

/-- Replaying the seek walk on its own output queue (from the same cleared
state) reproduces the output exactly. -/
theorem seekLoop_idem (tick : ℚ) (q : List Animation) :
    ∀ time st, seekLoop tick time (seekLoop tick time q st).1 st =
      seekLoop tick time q st := by
  induction q with
  | nil => intro time st; simp [seekLoop]
  | cons a rest ih =>
    intro time st
    obtain ⟨tr, ro, sc, op, du, de, ea, sa, ii⟩ := a
    simp only [seekLoop, init_true_eq]
    by_cases h : time + de + du ≤ tick
    · simp only [Animation.startVal, Option.getD_some, h, if_pos, ih]
      simp [Animation.end', seekLoop, init_true_eq, Animation.startVal, h, ih]
    · simp [Animation.startVal, h, seekLoop, init_true_eq]

/-- C2: `seek(t)` is idempotent: a second immediate `seek(t)` leaves the
whole item (state and queue, scheduling fields included) identical. -/
theorem seek_idempotent (it : Item) (t : ℚ) : (it.seek t).seek t = it.seek t := by
  by_cases h : it.animations.isEmpty = true
  · simp [Item.seek, h]
  · have h' : it.animations.isEmpty = false := by
      rcases hi : it.animations with _ | ⟨c, cs⟩
      · exact absurd (by rw [hi]; rfl) h
      · rfl
    have hne : ((seekLoop t 0 it.animations clearState).1).isEmpty = false := by
      have hlen := seekLoop_length t it.animations 0 clearState
      rcases hq : (seekLoop t 0 it.animations clearState).1 with _ | ⟨b, bs⟩
      · exfalso
        rw [hq] at hlen
        rcases hi : it.animations with _ | ⟨c, cs⟩
        · exact h (by rw [hi]; rfl)
        · rw [hi] at hlen
          simp at hlen
      · rfl
    simp [Item.seek, h', hne, seekLoop_idem]

/-- C10: `seek` on an item with an empty queue returns immediately and
changes nothing (in particular the state is not reset to the cleared
default). -/
theorem seek_empty_noop (it : Item) (t : ℚ) (h : it.animations = []) :
    it.seek t = it := by
  simp [Item.seek, h]

/-- Witness for `seek_empty_noop` at a concrete item and tick. -/
theorem seek_empty_noop_witness :
    Item.seek ⟨[], false, true, ⟨⟨3, 4, 5⟩, ⟨0, 0, 0⟩, ⟨1, 1, 1⟩, 1⟩⟩ 250 =
      ⟨[], false, true, ⟨⟨3, 4, 5⟩, ⟨0, 0, 0⟩, ⟨1, 1, 1⟩, 1⟩⟩ :=
  seek_empty_noop ⟨[], false, true, ⟨⟨3, 4, 5⟩, ⟨0, 0, 0⟩, ⟨1, 1, 1⟩, 1⟩⟩ 250 rfl

/-- C6: at `percent = 1`, vector fields are additive deltas (translate
`[10,0,0]` over initial `[5,0,0]` lands at `[15,0,0]`) while opacity is an
absolute target (target `1/5` over initial `1` lands at `1/5`, not `6/5`). -/
theorem transform_additive_vs_absolute :
    ((mkAnim (some ⟨10, 0, 0⟩) none 500 0).init 0 false
        ⟨⟨5, 0, 0⟩, ⟨0, 0, 0⟩, ⟨1, 1, 1⟩, 1⟩).transform 1
        ⟨⟨5, 0, 0⟩, ⟨0, 0, 0⟩, ⟨1, 1, 1⟩, 1⟩ =
      ⟨⟨15, 0, 0⟩, ⟨0, 0, 0⟩, ⟨1, 1, 1⟩, 1⟩ ∧
    ((mkAnim none (some (1 / 5)) 500 0).init 0 false clearState).transform 1
        clearState = { clearState with opacity := 1 / 5 } := by
  constructor
  · norm_num [mkAnim, Animation.init, Animation.transform, setVec, setScalar,
      clearState]
  · norm_num [mkAnim, Animation.init, Animation.transform, setVec, setScalar,
      clearState]

/-- One free-running tick strictly inside a cycle of the infinite
single-animation item: the anchored head is still in its window, so the
call only `run`s it. -/
theorem inf_step_run (c xc tick : ℚ) (ini : State) (h1 : c ≤ tick)
    (h2 : tick < c + 500) :
    Item.animation ⟨[{ a500 with start := some c, initial := some ini }],
        true, true, xyState xc 0⟩ tick =
      some ⟨[{ a500 with start := some c, initial := some ini }], true, true,
        xyState (ini.translate.x + 10 * ((tick - c) / 500)) 0⟩ := by
  have hc : ¬ (c + 500 ≤ tick) := not_le.mpr h2
  have hl : ¬ (tick < c) := not_lt.mpr h1
  simp [Item.animation, animationLoop, Animation.init, Animation.startVal,
    Animation.run, Animation.transform, setVec, setScalar, a500, mkAnim,
    xyState, linear, hc, hl]

/-- A free-running tick that reaches the end of a cycle: the head is
ended (snapping the delta), re-appended because `infinite` is set,
re-anchored at the current tick and run at progress `0`. -/
theorem inf_step_end (c xc tick : ℚ) (ini : State) (h1 : c + 500 ≤ tick) :
    Item.animation ⟨[{ a500 with start := some c, initial := some ini }],
        true, true, xyState xc 0⟩ tick =
      some ⟨[{ a500 with
          start := some (tick + 0)
          initial := some (xyState (ini.translate.x + 10 * 1) 0) }],
        true, true, xyState (ini.translate.x + 10 * 1) 0⟩ := by
  have h2 : ¬ (tick + 500 ≤ tick) := by linarith
  have h3 : ¬ (tick < tick) := lt_irrefl tick
  simp [Item.animation, animationLoop, Animation.init, Animation.startVal,
    Animation.run, Animation.end', Animation.transform, setVec, setScalar,
    a500, mkAnim, xyState, linear, h1, h2, h3]

/-- Free-running the infinite single-animation item follows the cycle
invariant `invInf` at every tick. -/
theorem freeRun_itemInf : ∀ t : ℕ, freeRun itemInf t = some (invInf t) := by
  intro t
  induction t with
  | zero =>
    norm_num [freeRun, Item.animation, animationLoop, Animation.init,
      Animation.startVal, Animation.run, Animation.end', Animation.transform,
      setVec, setScalar, itemInf, invInf, a500, mkAnim, xyState, linear,
      clearState]
  | succ t ih =>
    have hstep : freeRun itemInf (t + 1) =
        Item.animation (invInf t) ((t + 1 : ℕ) : ℚ) := by
      simp [freeRun, ih]
    have hk1 : 500 * (t / 500) ≤ t := by omega
    have hk2 : t < 500 * (t / 500) + 500 := by omega
    by_cases hb : t + 1 = 500 * (t / 500) + 500
    · -- boundary tick: a cycle completes and the unit is recycled
      have hdiv : (t + 1) / 500 = t / 500 + 1 := by omega
      have h1 : ((500 * (t / 500) : ℕ) : ℚ) + 500 ≤ ((t + 1 : ℕ) : ℚ) := by
        have hh : 500 * (t / 500) + 500 ≤ t + 1 := by omega
        push_cast
        exact_mod_cast hh
      rw [hstep]
      show Item.animation (invInf t) ((t + 1 : ℕ) : ℚ) = some (invInf (t + 1))
      rw [show invInf t = ⟨[{ a500 with
            start := some ((500 * (t / 500) : ℕ) : ℚ)
            initial := some (xyState ((10 * (t / 500) : ℕ) : ℚ) 0) }],
          true, true,
          xyState (((10 * (t / 500) : ℕ) : ℚ) +
            10 * (((t : ℚ) - ((500 * (t / 500) : ℕ) : ℚ)) / 500)) 0⟩ from rfl]
      rw [inf_step_end _ _ _ _ h1]
      simp only [invInf, hdiv, xyState]
      have e1 : ((t + 1 : ℕ) : ℚ) = ((500 * (t / 500 + 1) : ℕ) : ℚ) :=
        congrArg (fun n : ℕ => (n : ℚ)) (by omega : t + 1 = 500 * (t / 500 + 1))
      rw [e1]
      push_cast
      norm_num [Option.some.injEq, Item.mk.injEq, Animation.mk.injEq,
        State.mk.injEq, V3.mk.injEq, List.cons.injEq]
      ring
    · -- interior tick: the head is still inside the current cycle
      have hdiv : (t + 1) / 500 = t / 500 := by omega
      have h1 : ((500 * (t / 500) : ℕ) : ℚ) ≤ ((t + 1 : ℕ) : ℚ) := by
        exact_mod_cast Nat.le_succ_of_le hk1
      have h2 : ((t + 1 : ℕ) : ℚ) < ((500 * (t / 500) : ℕ) : ℚ) + 500 := by
        have : t + 1 < 500 * (t / 500) + 500 := by omega
        push_cast
        exact_mod_cast this
      rw [hstep]
      rw [show invInf t = ⟨[{ a500 with
            start := some ((500 * (t / 500) : ℕ) : ℚ)
            initial := some (xyState ((10 * (t / 500) : ℕ) : ℚ) 0) }],
          true, true,
          xyState (((10 * (t / 500) : ℕ) : ℚ) +
            10 * (((t : ℚ) - ((500 * (t / 500) : ℕ) : ℚ)) / 500)) 0⟩ from rfl]
      rw [inf_step_run _ _ _ _ h1 h2]
      simp only [invInf, hdiv, xyState]

/-- Free-running tick inside the first unit's window for the
`[100, 200, 150]` queue: only the head runs. -/
theorem step_run1 (c xc yc tick : ℚ) (ini : State) (h1 : c ≤ tick)
    (h2 : tick < c + 100) :
    Item.animation ⟨[{ a100 with start := some c, initial := some ini },
        a200, a150], false, true, xyState xc yc⟩ tick =
      some ⟨[{ a100 with start := some c, initial := some ini }, a200, a150],
        false, true, xyState (ini.translate.x + 10 * ((tick - c) / 100)) yc⟩ := by
  have hc : ¬ (c + 100 ≤ tick) := not_le.mpr h2
  have hl : ¬ (tick < c) := not_lt.mpr h1
  simp [Item.animation, animationLoop, Animation.init, Animation.startVal,
    Animation.run, Animation.transform, setVec, setScalar, a100, a200, a150,
    mkAnim, xyState, linear, hc, hl]

/-- Free-running tick inside the second unit's window: the `y` axis moves,
the `x` axis (zero delta) is left at the current value. -/
theorem step_run2 (c xc yc tick : ℚ) (ini : State) (h1 : c ≤ tick)
    (h2 : tick < c + 200) :
    Item.animation ⟨[{ a200 with start := some c, initial := some ini },
        a150], false, true, xyState xc yc⟩ tick =
      some ⟨[{ a200 with start := some c, initial := some ini }, a150],
        false, true, xyState xc (ini.translate.y + 20 * ((tick - c) / 200))⟩ := by
  have hc : ¬ (c + 200 ≤ tick) := not_le.mpr h2
  have hl : ¬ (tick < c) := not_lt.mpr h1
  simp [Item.animation, animationLoop, Animation.init, Animation.startVal,
    Animation.run, Animation.transform, setVec, setScalar, a200, a150,
    mkAnim, xyState, linear, hc, hl]

/-- Free-running tick inside the third unit's window. -/
theorem step_run3 (c xc yc tick : ℚ) (ini : State) (h1 : c ≤ tick)
    (h2 : tick < c + 150) :
    Item.animation ⟨[{ a150 with start := some c, initial := some ini }],
        false, true, xyState xc yc⟩ tick =
      some ⟨[{ a150 with start := some c, initial := some ini }],
        false, true, xyState (ini.translate.x + 7 * ((tick - c) / 150)) yc⟩ := by
  have hc : ¬ (c + 150 ≤ tick) := not_le.mpr h2
  have hl : ¬ (tick < c) := not_lt.mpr h1
  simp [Item.animation, animationLoop, Animation.init, Animation.startVal,
    Animation.run, Animation.transform, setVec, setScalar, a150,
    mkAnim, xyState, linear, hc, hl]

/-- Free-running the `[100, 200, 150]` item follows the phase invariant
`inv3` at every tick. -/
theorem freeRun_item3 : ∀ t : ℕ, freeRun item3 t = some (inv3 t) := by
  intro t
  induction t with
  | zero =>
    norm_num [freeRun, Item.animation, animationLoop, Animation.init,
      Animation.startVal, Animation.run, Animation.end', Animation.transform,
      setVec, setScalar, item3, inv3, a100, a200, a150, mkAnim, xyState,
      linear, clearState]
  | succ t ih =>
    have hstep : freeRun item3 (t + 1) =
        Item.animation (inv3 t) ((t + 1 : ℕ) : ℚ) := by
      simp [freeRun, ih]
    rw [hstep]
    by_cases hA : t + 1 < 100
    · -- interior of phase 1
      have ht1 : t < 100 := by omega
      have hc1 : ((t + 1 : ℕ) : ℚ) < 0 + 100 := by
        rw [zero_add]; exact_mod_cast hA
      rw [show inv3 t = ⟨[{ a100 with start := some 0, initial := some (xyState 0 0) },
            a200, a150], false, true,
          xyState ((t : ℚ) / 10) 0⟩ from by simp [inv3, ht1]]
      rw [step_run1 0 _ _ _ _ (by positivity) hc1]
      simp only [inv3, hA, if_pos, xyState]
      push_cast
      norm_num
      ring
    by_cases hB : t + 1 = 100
    · -- boundary: first unit ends, second unit starts
      have ht : t = 99 := by omega
      subst ht
      norm_num [Item.animation, animationLoop, Animation.init,
        Animation.startVal, Animation.run, Animation.end', Animation.transform,
        setVec, setScalar, inv3, a100, a200, a150, mkAnim, xyState, linear,
        Option.some_ne_none]
    by_cases hC : t + 1 < 300
    · -- interior of phase 2
      have ht1 : ¬ (t < 100) := by omega
      have ht2 : t < 300 := by omega
      have hge : (100 : ℚ) ≤ ((t + 1 : ℕ) : ℚ) := by
        have : (100 : ℕ) ≤ t + 1 := by omega
        exact_mod_cast this
      have hlt : ((t + 1 : ℕ) : ℚ) < 100 + 200 := by
        have : t + 1 < 300 := hC
        push_cast
        exact_mod_cast this
      rw [show inv3 t = ⟨[{ a200 with start := some 100, initial := some (xyState 10 0) },
            a150], false, true,
          xyState 10 (((t : ℚ) - 100) / 10)⟩ from by simp [inv3, ht1, ht2]]
      rw [step_run2 100 _ _ _ _ hge hlt]
      simp only [inv3, hC, if_pos, xyState, show ¬ (t + 1 < 100) from by omega]
      push_cast
      norm_num
      ring
    by_cases hD : t + 1 = 300
    · -- boundary: second unit ends, third unit starts
      have ht : t = 299 := by omega
      subst ht
      norm_num [Item.animation, animationLoop, Animation.init,
        Animation.startVal, Animation.run, Animation.end', Animation.transform,
        setVec, setScalar, inv3, a100, a200, a150, mkAnim, xyState, linear,
        Option.some_ne_none]
    by_cases hE : t + 1 < 450
    · -- interior of phase 3
      have ht1 : ¬ (t < 100) := by omega
      have ht2 : ¬ (t < 300) := by omega
      have ht3 : t < 450 := by omega
      have hge : (300 : ℚ) ≤ ((t + 1 : ℕ) : ℚ) := by
        have : (300 : ℕ) ≤ t + 1 := by omega
        exact_mod_cast this
      have hlt : ((t + 1 : ℕ) : ℚ) < 300 + 150 := by
        have : t + 1 < 450 := hE
        push_cast
        exact_mod_cast this
      rw [show inv3 t = ⟨[{ a150 with start := some 300, initial := some (xyState 10 20) }],
          false, true,
          xyState (10 + 7 * (((t : ℚ) - 300) / 150)) 20⟩ from by
        simp [inv3, ht1, ht2, ht3]]
      rw [step_run3 300 _ _ _ _ hge hlt]
      simp only [inv3, hE, if_pos, xyState,
        show ¬ (t + 1 < 100) from by omega, show ¬ (t + 1 < 300) from by omega]
      push_cast
      norm_num
    by_cases hF : t + 1 = 450
    · -- boundary: third unit ends, the queue empties
      have ht : t = 449 := by omega
      subst ht
      norm_num [Item.animation, animationLoop, Animation.init,
        Animation.startVal, Animation.run, Animation.end', Animation.transform,
        setVec, setScalar, inv3, a100, a200, a150, mkAnim, xyState, linear,
        Option.some_ne_none]
    · -- past the end: the queue is empty and the call is a no-op
      have ht1 : ¬ (t < 100) := by omega
      have ht2 : ¬ (t < 300) := by omega
      have ht3 : ¬ (t < 450) := by omega
      simp [inv3, ht1, ht2, ht3, show ¬ (t + 1 < 100) from by omega,
        show ¬ (t + 1 < 300) from by omega, show ¬ (t + 1 < 450) from by omega,
        Item.animation]

/-- `seek` on the `[100, 200, 150]` item reproduces the same phase state
formulas at every tick. -/
theorem seek_item3_state : ∀ t : ℕ,
    (item3.seek ((t : ℕ) : ℚ)).state = (inv3 t).state := by
  intro t
  have ht0 : ¬ ((t : ℚ) < 0) := not_lt.mpr (Nat.cast_nonneg t)
  by_cases h1 : t < 100
  · have c1 : ¬ ((100 : ℚ) ≤ (t : ℚ)) := by
      have : (t : ℚ) < 100 := by exact_mod_cast h1
      linarith
    norm_num [Item.seek, seekLoop, Animation.init, Animation.startVal,
      Animation.run, Animation.transform, setVec, setScalar, item3, inv3, h1,
      a100, a200, a150, mkAnim, xyState, linear, clearState, c1, ht0]
    ring
  by_cases h2 : t < 300
  · have c1 : ((100 : ℚ) ≤ (t : ℚ)) := by
      exact_mod_cast Nat.le_of_not_lt h1
    have c2 : ¬ ((300 : ℚ) ≤ (t : ℚ)) := by
      have : (t : ℚ) < 300 := by exact_mod_cast h2
      linarith
    have cr : ¬ ((t : ℚ) < 100) := not_lt.mpr c1
    norm_num [Item.seek, seekLoop, Animation.init, Animation.startVal,
      Animation.run, Animation.end', Animation.transform, setVec, setScalar,
      item3, inv3, h1, h2, a100, a200, a150, mkAnim, xyState, linear,
      clearState, c1, c2, cr, ht0]
    ring
  by_cases h3 : t < 450
  · have c1 : ((100 : ℚ) ≤ (t : ℚ)) := by
      have : (300 : ℚ) ≤ (t : ℚ) := by exact_mod_cast Nat.le_of_not_lt h2
      linarith
    have c2 : ((300 : ℚ) ≤ (t : ℚ)) := by
      exact_mod_cast Nat.le_of_not_lt h2
    have c3 : ¬ ((450 : ℚ) ≤ (t : ℚ)) := by
      have : (t : ℚ) < 450 := by exact_mod_cast h3
      linarith
    have cr : ¬ ((t : ℚ) < 300) := not_lt.mpr c2
    have cr1 : ¬ ((t : ℚ) < 100) := not_lt.mpr c1
    norm_num [Item.seek, seekLoop, Animation.init, Animation.startVal,
      Animation.run, Animation.end', Animation.transform, setVec, setScalar,
      item3, inv3, h1, h2, h3, a100, a200, a150, mkAnim, xyState, linear,
      clearState, c1, c2, c3, cr, cr1, ht0]
  · have c1 : ((100 : ℚ) ≤ (t : ℚ)) := by
      have : (450 : ℚ) ≤ (t : ℚ) := by exact_mod_cast Nat.le_of_not_lt h3
      linarith
    have c2 : ((300 : ℚ) ≤ (t : ℚ)) := by
      have : (450 : ℚ) ≤ (t : ℚ) := by exact_mod_cast Nat.le_of_not_lt h3
      linarith
    have c3 : ((450 : ℚ) ≤ (t : ℚ)) := by
      exact_mod_cast Nat.le_of_not_lt h3
    norm_num [Item.seek, seekLoop, Animation.init, Animation.startVal,
      Animation.run, Animation.end', Animation.transform, setVec, setScalar,
      item3, inv3, h1, h2, h3, a100, a200, a150, mkAnim, xyState, linear,
      clearState, c1, c2, c3, ht0]

/-- C1: for the non-infinite, non-paused item with the zero-delay
`[100, 200, 150]` queue started from the cleared state, a single `seek(t)`
produces, at every tick `t`, exactly the state reached by free-running
`animation(tick)` calls at ticks `0, 1, ..., t` on an identically
configured item. -/
theorem free_running_matches_seek (t : ℕ) :
    (freeRun item3 t).map Item.state =
      some ((item3.seek ((t : ℕ) : ℚ)).state) := by
  rw [freeRun_item3 t, seek_item3_state t]
  rfl

/-- Counterexample to C7 as stated: for the infinite item whose single
500ms unit carries a translate delta, the state at tick `2000` is NOT
equal to the state at tick `500` — each completed cycle re-applies the
additive delta, so `x` has drifted from `10` to `40`. -/
theorem infinite_state_drifts :
    (freeRun itemInf 2000).map Item.state = some (xyState 40 0) ∧
    (freeRun itemInf 500).map Item.state = some (xyState 10 0) ∧
    xyState 40 0 ≠ xyState 10 0 := by
  refine ⟨?_, ?_, ?_⟩
  · rw [freeRun_itemInf 2000]
    norm_num [invInf, xyState]
  · rw [freeRun_itemInf 500]
    norm_num [invInf, xyState]
  · norm_num [xyState]

/-- C7 amended: the ended unit is re-appended (queue still holds exactly
one unit, re-anchored at tick `2000`, rather than being discarded), the
unit has completed four cycles by tick `2000` (at least three), and the
state at tick `2000` equals the state at tick `500` with the translate
delta applied three additional times (`10 + 3 * 10` instead of `10`) —
equality holds only up to that per-cycle additive drift. -/
theorem infinite_requeue_amended :
    (freeRun itemInf 2000).map (fun it => it.animations.length) = some 1 ∧
    (freeRun itemInf 2000).map (fun it => it.animations.head?.map Animation.start) =
      some (some (some 2000)) ∧
    (freeRun itemInf 2000).map Item.state = some (xyState (10 + 3 * 10) 0) ∧
    (freeRun itemInf 500).map Item.state = some (xyState 10 0) := by
  refine ⟨?_, ?_, ?_, ?_⟩
  · rw [freeRun_itemInf 2000]
    norm_num [invInf]
  · rw [freeRun_itemInf 2000]
    norm_num [invInf]
  · rw [freeRun_itemInf 2000]
    norm_num [invInf, xyState]
  · rw [freeRun_itemInf 500]
    norm_num [invInf, xyState]

/-- `Math.atan2(0, 0)` is `0`. -/
theorem atan2_zero_zero : atan2 0 0 = 0 := by
  simp [atan2]

/-- `atan2` with a positive abscissa is `arctan` of the ratio. -/
theorem atan2_of_pos (y x : ℝ) (hx : 0 < x) :
    atan2 y x = Real.arctan (y / x) := by
  simp [atan2, hx]

/-- C9: binary `multiply` always leaves the perspective positions 3, 7, 11
at `0` and position 15 at `1` (identity defaults), even when the left
factor carries a perspective term built by `perspective()`; and the
variadic form folds left-to-right:
`multiply(a, b, c) = multiply(multiply(a, b), c)`. -/
theorem multiply_affine_slots (a b c : Mat4) (p : ℝ) :
    (Matrix.multiply a b).e3 = 0 ∧ (Matrix.multiply a b).e7 = 0 ∧
    (Matrix.multiply a b).e11 = 0 ∧ (Matrix.multiply a b).e15 = 1 ∧
    (Matrix.multiply (Matrix.perspective p) b).e11 = 0 ∧
    Matrix.multiplyMany a b [c] = Matrix.multiply (Matrix.multiply a b) c :=
  ⟨rfl, rfl, rfl, rfl, rfl, rfl⟩

/-- When the 3x3 block is non-singular, `multiply(m, inverse(m))` is
exactly the identity matrix. -/
theorem mul_inverse_eq (m : Mat4) (h : Matrix.det3 m ≠ 0) :
    Matrix.multiply m (Matrix.inverse m) = Matrix.identity := by
  rw [Matrix.det3] at h
  ext <;>
    simp only [Matrix.multiply, Matrix.inverse, Matrix.identity] <;>
    field_simp <;>
    ring

/-- C5: for every 16-element matrix whose upper-left 3x3 block has
non-zero determinant, `multiply(m, inverse(m))` is within `1e-4` of
`identity()` in every component (in fact exactly equal). -/
theorem mul_inverse_approx_identity (m : Mat4) (h : Matrix.det3 m ≠ 0) :
    Mat4.approx (1 / 10000) (Matrix.multiply m (Matrix.inverse m))
      Matrix.identity := by
  rw [mul_inverse_eq m h]
  norm_num [Mat4.approx]

/-- Witness for `mul_inverse_approx_identity` at a concrete non-singular
matrix. -/
theorem mul_inverse_approx_identity_witness :
    Matrix.det3 Matrix.identity ≠ 0 ∧
    Mat4.approx (1 / 10000)
      (Matrix.multiply Matrix.identity (Matrix.inverse Matrix.identity))
      Matrix.identity :=
  ⟨by norm_num [Matrix.det3, Matrix.identity],
    mul_inverse_approx_identity Matrix.identity
      (by norm_num [Matrix.det3, Matrix.identity])⟩

/-- The Euler matrix at the pole `(0, 90, 0)`, computed explicitly. -/
theorem rot090 : Matrix.rotate 0 90 0 =
    ⟨0, 0, -1, 0, 0, 1, 0, 0, 1, 0, 0, 0, 0, 0, 0, 1⟩ := by
  have h : (90 : ℝ) * (Real.pi / 180) = Real.pi / 2 := by ring
  norm_num [Matrix.rotate, radians, h, Real.sin_pi_div_two,
    Real.cos_pi_div_two]

/-- Counterexample to C4 as stated: at the gimbal pole `(0, 90, 0)` the
element `m[4]` tested by `decompose`'s specialized branch is `0`, not
`±1`, so the specialized gimbal-lock branch is NOT substituted there
(the element fed to `asin` is `m[8]`, not `m[4]`). -/
theorem gimbal_branch_not_taken_at_pole :
    ¬ ((Matrix.rotate 0 90 0).e4 = 1 ∨ (Matrix.rotate 0 90 0).e4 = -1) := by
  rw [rot090]
  norm_num

/-- C4 amended: `decompose` on the rotation matrix `(0, 90, 0)` returns
finite values — exactly translate `(0,0,0)`, rotate `(0,90,0)`, scale
`(1,1,1)` — and `compose` of those reproduces the input matrix within
`1e-4`; but this happens through the general formula (whose `atan2` calls
receive `(0, 0)` and return `0`, and whose `asin` receives exactly `1`),
because the branch test `m[4] = ±1` is false at this input. -/
theorem decompose_pole_general_roundtrip :
    Matrix.decompose (Matrix.rotate 0 90 0) =
      ⟨⟨0, 0, 0⟩, ⟨0, 90, 0⟩, ⟨1, 1, 1⟩⟩ ∧
    Mat4.approx (1 / 10000) (Matrix.compose ⟨0, 0, 0⟩ ⟨0, 90, 0⟩ ⟨1, 1, 1⟩)
      (Matrix.rotate 0 90 0) := by
  have hdiv : (Real.pi / 2) / (Real.pi / 180) = 90 := by
    have hπ := Real.pi_ne_zero
    field_simp
    ring
  constructor
  · rw [rot090]
    norm_num [Matrix.decompose, Vector.length, atan2, radians,
      Real.arcsin_one, hdiv]
  · have hcomp : Matrix.compose ⟨0, 0, 0⟩ ⟨0, 90, 0⟩ ⟨1, 1, 1⟩ =
        Matrix.rotate 0 90 0 := by
      rw [Matrix.compose, rot090]
      norm_num
    rw [hcomp]
    norm_num [Mat4.approx]

/-- C8: evaluation at the failing input.  `rotate3d` with the zero axis
does NOT fall back to the Z axis: `Vector.norm` maps the zero vector to
the zero vector, so `rotate3d(0,0,0,90)` degenerates to the zero scaling
block (`cos 90° = 0` on the diagonal), while the Z-axis rotation
`rotate3d(0,0,1,90)` has `m[1] = sin 90° = 1`. -/
theorem rotate3d_zero_axis_bug :
    Matrix.rotate3d 0 0 0 90 =
      ⟨0, 0, 0, 0, 0, 0, 0, 0, 0, 0, 0, 0, 0, 0, 0, 1⟩ ∧
    (Matrix.rotate3d 0 0 1 90).e1 = 1 ∧
    Matrix.rotate3d 0 0 0 90 ≠ Matrix.rotate3d 0 0 1 90 := by
  have h : (90 : ℝ) * (Real.pi / 180) = Real.pi / 2 := by ring
  have h0 : Matrix.rotate3d 0 0 0 90 =
      ⟨0, 0, 0, 0, 0, 0, 0, 0, 0, 0, 0, 0, 0, 0, 0, 1⟩ := by
    norm_num [Matrix.rotate3d, Vector.norm, Vector.length, radians, h,
      Real.cos_pi_div_two, Real.sin_pi_div_two]
  have h1 : (Matrix.rotate3d 0 0 1 90).e1 = 1 := by
    norm_num [Matrix.rotate3d, Vector.norm, Vector.length, radians, h,
      Real.cos_pi_div_two, Real.sin_pi_div_two]
  refine ⟨h0, h1, fun heq => ?_⟩
  have he := congrArg Mat4.e1 heq
  rw [h0, h1] at he
  norm_num at he

/-- The Euler matrix at `(0, 0, 30)`, computed explicitly. -/
theorem rot0030 : Matrix.rotate 0 0 30 =
    ⟨Real.sqrt 3 / 2, 1 / 2, 0, 0, -(1 / 2), Real.sqrt 3 / 2, 0, 0,
     0, 0, 1, 0, 0, 0, 0, 1⟩ := by
  have h : (30 : ℝ) * (Real.pi / 180) = Real.pi / 6 := by ring
  norm_num [Matrix.rotate, radians, h, Real.sin_pi_div_six,
    Real.cos_pi_div_six]

/-- `compose((0,0,0), (0,0,30), (1,2,1))` scales the middle row by 2,
making the tested element `m[4]` exactly `-1` on a benign input. -/
theorem comp0030 : Matrix.compose ⟨0, 0, 0⟩ ⟨0, 0, 30⟩ ⟨1, 2, 1⟩ =
    ⟨Real.sqrt 3 / 2, 1 / 2, 0, 0, -1, Real.sqrt 3, 0, 0,
     0, 0, 1, 0, 0, 0, 0, 1⟩ := by
  rw [Matrix.compose, rot0030]
  norm_num

/-- C3: evaluation at the failing input.  For the valid triple
`t = (0,0,0)`, `r = (0,0,30)` (each axis inside `(-90, 90)`),
`s = (1,2,1)` (positive), the composed matrix has `m[4] = -1`, so
`decompose`'s gimbal branch misfires: it forces the recovered Z rotation
to `0` instead of `30`, violating the `1e-4` round-trip bound. -/
theorem decompose_gimbal_misfire :
    (Matrix.decompose (Matrix.compose ⟨0, 0, 0⟩ ⟨0, 0, 30⟩ ⟨1, 2, 1⟩)).rotate.z = 0 ∧
    ¬ (|(Matrix.decompose
          (Matrix.compose ⟨0, 0, 0⟩ ⟨0, 0, 30⟩ ⟨1, 2, 1⟩)).rotate.z - 30| ≤
        1 / 10000) := by
  have hsY : Vector.length (-1) (Real.sqrt 3) 0 = 2 := by
    rw [Vector.length]
    rw [show ((-1 : ℝ) * -1 + Real.sqrt 3 * Real.sqrt 3 + 0 * 0) = 4 by
      rw [Real.mul_self_sqrt (by norm_num : (0:ℝ) ≤ 3)]
      norm_num]
    rw [show (4 : ℝ) = 2 ^ 2 by norm_num]
    exact Real.sqrt_sq (by norm_num)
  have hpos : (0 : ℝ) < Real.sqrt 3 / 2 := by positivity
  have hat : atan2 0 (Real.sqrt 3 / 2) = 0 := by
    rw [atan2_of_pos _ _ hpos]
    simp [Real.arctan_zero]
  have hz : (Matrix.decompose
      (Matrix.compose ⟨0, 0, 0⟩ ⟨0, 0, 30⟩ ⟨1, 2, 1⟩)).rotate.z = 0 := by
    rw [comp0030]
    norm_num [Matrix.decompose, hsY, hat]
  refine ⟨hz, ?_⟩
  rw [hz]
  norm_num

end Anima
